import Mathlib

/-!
# Verification of the rokit/aftman core pipeline

A shallow embedding of the repository's core: the CLI run loop
(`src/src/cli/mod.rs`, `src/src/main.rs`), the file-system utility layer
(`src/lib/util.rs`), the release data model
(`src/lib/sources/github/models.rs`), and — where the repository ships only
callers or declarations — spec-modelled definitions of the resolver, trust
store, installer gate, link manager and Home loader.

Fallible Rust functions are embedded as Lean functions returning `Except`;
the I/O outcomes of the environment (results of `read_to_string`, `write`,
`remove_file`, `symlink`, `set_permissions`) are passed in as explicit
parameters, and the sequence of attempted file-system operations is returned
as an explicit trace so that ordering and interruption properties can be
stated.
-/

namespace Aftman

/-- The kind of a `std::io::Error`, as far as the embedded code inspects it
(`e.kind() == std::io::ErrorKind::NotFound` is the only kind test made). -/
inductive IoErrorKind where
  | notFound
  | permissionDenied
  | other
deriving DecidableEq, Repr

/-- An I/O error: a kind plus a message. -/
structure IoError where
  kind : IoErrorKind
  msg : String
deriving DecidableEq, Repr

/-- A tool identifier: owner-qualified name within a release source
(spec §3: "source kind, owner/repo-like key, short name"). -/
structure ToolId where
  author : String
  name : String
deriving DecidableEq, Repr

/-- An installed tool record: identifier, resolved version tag and the
versioned storage path of its executable (spec §3 `InstalledTool`). -/
structure InstalledTool where
  id : ToolId
  version : String
  path : String
deriving DecidableEq, Repr

/-- The error taxonomy of the core (`AftmanError`, spec §7). -/
inductive AftmanError where
  | fileNotFound (path : String)
  | fileCorrupt (path : String)
  | io (e : IoError)
  | untrusted (id : ToolId)
  | specNotSatisfiable
  | networkError (msg : String)
deriving DecidableEq, Repr

/-- The in-memory aggregate of persisted state: the trust store (set of
trusted identifiers) and the tool index (map identifier → installed tool),
spec §3 `Home`. -/
structure Home where
  trustStore : List ToolId
  toolIndex : List (ToolId × InstalledTool)
deriving DecidableEq, Repr

/-! ## The CLI run loop (`src/src/cli/mod.rs`, `src/src/main.rs`)

`Cli::run` loads Home with `?` (early return on failure), runs the
subcommand *without* `?` (capturing its result), saves Home with `?`
(early return on failure), and only then returns the subcommand's result.
`main` exits with code 1 on an `Err` result and 0 otherwise.

The behavior of the environment (what loading returns, what the subcommand
does to Home and returns, what saving returns) is a parameter; `Cli.run`
returns its `Result` together with the trace of the three phases it
actually performed. -/

/-- One observable phase of `Cli::run`. -/
inductive CliEvent where
  | loadAttempt
  | commandRun
  | saveAttempt
deriving DecidableEq, Repr

/-- The error `Cli::run` returns, tagged with which phase produced it
(in the source, a phase-specific `.context(...)` message is attached). -/
inductive CliError where
  | loadFailed (e : AftmanError)
  | commandFailed (e : AftmanError)
  | saveFailed (e : AftmanError)
deriving DecidableEq, Repr

/-- Environment of one process invocation: the outcome of
`Home::load_from_env`, the subcommand's action on the loaded Home
(its result together with the mutated Home), and the outcome of
`Home::save` on a given Home. -/
structure CliBehavior where
  loadResult : Except AftmanError Home
  command : Home → Except AftmanError Unit × Home
  save : Home → Except AftmanError Unit

/-- `Cli::run` (src/src/cli/mod.rs lines 24–60): load with `?`, run the
subcommand capturing its result, save with `?`, then return the captured
result. -/
def Cli.run (b : CliBehavior) : Except CliError Unit × List CliEvent :=
  match b.loadResult with
  | .error e => (.error (.loadFailed e), [.loadAttempt])
  | .ok home =>
    let rc := b.command home
    match b.save rc.2 with
    | .error e => (.error (.saveFailed e), [.loadAttempt, .commandRun, .saveAttempt])
    | .ok _ =>
      match rc.1 with
      | .error e => (.error (.commandFailed e), [.loadAttempt, .commandRun, .saveAttempt])
      | .ok _ => (.ok (), [.loadAttempt, .commandRun, .saveAttempt])

/-- `main` (src/src/main.rs lines 14–32): `exit(1)` on an `Err` result,
normal termination (exit code 0) otherwise. -/
def exitCode : Except CliError Unit → Nat
  | .ok _ => 0
  | .error _ => 1

/-! ## File-system operations and interruption semantics (`src/lib/util.rs`)

Each utility function is embedded as a Lean function taking the outcomes of
the primitive I/O calls it makes as parameters, and returning its `Result`
together with the ordered trace of file-system operations it attempted.
A small operational semantics over traces (`applyOps`, `obsState`) lets us
talk about which file contents are observable if the process is interrupted
mid-trace, with a `write` interrupted after `k` bytes leaving the first `k`
bytes at the path and every other operation atomic. -/

/-- A primitive file-system operation, as attempted by the utility layer.
File contents are byte lists. -/
inductive FsOp where
  | write (path : String) (contents : List Nat)
  | rename (src : String) (dst : String)
  | removeFile (path : String)
  | symlink (target : String) (link : String)
  | setPermissions (path : String) (mode : Nat)
deriving DecidableEq, Repr

/-- Does the operation rename anything into place? -/
def FsOp.isRename : FsOp → Bool
  | .rename _ _ => true
  | _ => false

/-- A file-system state: what contents (if any) each path holds.
A symlink is recorded at the link path as the target path's name encoded as
its byte list; for the properties proved here only presence and contents at
the final executable path matter. -/
def FsState := String → Option (List Nat)

/-- The file system with no files. -/
def emptyFs : FsState := fun _ => none

/-- Effect of one completed operation on the file-system state. -/
def applyOp (s : FsState) : FsOp → FsState
  | .write p c => fun q => if q = p then some c else s q
  | .rename src dst => fun q =>
      if q = dst then s src else if q = src then none else s q
  | .removeFile p => fun q => if q = p then none else s q
  | .symlink t l => fun q => if q = l then some (t.toList.map Char.toNat) else s q
  | .setPermissions _ _ => s

/-- Effect of a completed trace of operations, in order. -/
def applyOps (s : FsState) : List FsOp → FsState
  | [] => s
  | op :: ops => applyOps (applyOp s op) ops

/-- Effect of an operation interrupted mid-way: a `write` interrupted after
`k` bytes leaves the first `k` bytes of the contents at the path; every
other operation is atomic, so interruption leaves the state unchanged. -/
def applyOpTrunc (s : FsState) (k : Nat) : FsOp → FsState
  | .write p c => fun q => if q = p then some (c.take k) else s q
  | _ => s

/-- The file-system state observable when a process executing `ops` from
initial state `s0` is interrupted during the `i`-th operation, that
operation having progressed `k` bytes; when `i` is past the end of the
trace, the final (uninterrupted) state. -/
def obsState (s0 : FsState) (ops : List FsOp) (i k : Nat) : FsState :=
  match ops.drop i with
  | [] => applyOps s0 ops
  | op :: _ => applyOpTrunc (applyOps s0 (ops.take i)) k op

/-- `write_executable_file` (src/lib/util.rs lines 72–86): one `write` of
the contents directly at the given path (early return on failure), then
`add_executable_permissions` sets mode 0o755 on that path (early return on
failure). `writeRes` and `permRes` are the environment's outcomes for those
two calls. -/
def write_executable_file (writeRes : Except IoError Unit)
    (permRes : Except IoError Unit) (path : String) (contents : List Nat) :
    Except AftmanError Unit × List FsOp :=
  match writeRes with
  | .error e => (.error (.io e), [.write path contents])
  | .ok _ =>
    match permRes with
    | .error e => (.error (.io e),
        [.write path contents, .setPermissions path 493])
    | .ok _ => (.ok (),
        [.write path contents, .setPermissions path 493])

/-- The platform families the link code distinguishes: `cfg(unix)` splits
into macOS and other unix; everything else takes the `cfg(not(unix))`
stub. -/
inductive Platform where
  | macos
  | linux
  | windows
deriving DecidableEq, Repr

/-- Outcome of `write_executable_link`: success, a typed error, or a panic
(the `cfg(not(unix))` stub unconditionally panics). -/
inductive LinkOutcome where
  | ok
  | error (e : AftmanError)
  | panicked (msg : String)
deriving DecidableEq, Repr

/-- `write_executable_link` (src/lib/util.rs lines 96–140): on non-unix the
stub panics. On unix: `remove_file(link_path).await.ok()` — the removal is
attempted and its result `removeRes` is discarded entirely by `.ok()` —
then `symlink(target, link)` (early return on failure), and on macOS only,
`add_executable_permissions(link_path)` (early return on failure). -/
def write_executable_link (removeRes : Except IoError Unit)
    (symRes : Except IoError Unit) (permRes : Except IoError Unit)
    (platform : Platform) (link target : String) :
    LinkOutcome × List FsOp :=
  match platform with
  | .windows =>
    (.panicked "write_executable_link should only be called on unix systems", [])
  | _ =>
    match symRes with
    | .error e => (.error (.io e), [.removeFile link, .symlink target link])
    | .ok _ =>
      match platform with
      | .macos =>
        match permRes with
        | .error e => (.error (.io e),
            [.removeFile link, .symlink target link,
             .setPermissions link 493])
        | .ok _ => (.ok,
            [.removeFile link, .symlink target link,
             .setPermissions link 493])
      | _ => (.ok, [.removeFile link, .symlink target link])

/-! ## Loading and saving state files (`src/lib/util.rs`)

The generic loaders are embedded with the outcome of `read_to_string` and
(for the healing loader) of `write` as parameters, and the parse function of
the target type explicit. -/

/-- `load_from_file_fallible` (src/lib/util.rs lines 13–30): a read error of
kind `NotFound` becomes `AftmanError.fileNotFound path`; any other read
error propagates; on a successful read the contents are parsed and a parse
error propagates. `parse` is the target type's `FromStr`, its error already
converted into `AftmanError`. -/
def load_from_file_fallible {T : Type} (readRes : Except IoError (List Nat))
    (parse : List Nat → Except AftmanError T) (path : String) :
    Except AftmanError T :=
  match readRes with
  | .error e =>
    if e.kind = .notFound then .error (.fileNotFound path)
    else .error (.io e)
  | .ok s => parse s

/-- `load_from_file` (src/lib/util.rs lines 38–53): a read error of kind
`NotFound` is healed by writing the default value's serialized form to the
path (early return if that write fails) and returning the default; any
other read error propagates; a successful read is parsed with the type's
infallible `FromStr` (`Err = Infallible`, so the `unwrap` never panics).
Returns the result together with the trace of writes attempted. -/
def load_from_file {T : Type} (readRes : Except IoError (List Nat))
    (writeRes : Except IoError Unit) (dfault : T) (parse : List Nat → T)
    (ser : T → List Nat) (path : String) :
    Except AftmanError T × List FsOp :=
  match readRes with
  | .error e =>
    if e.kind = .notFound then
      match writeRes with
      | .error e2 => (.error (.io e2), [.write path (ser dfault)])
      | .ok _ => (.ok dfault, [.write path (ser dfault)])
    else (.error (.io e), [])
  | .ok s => (.ok (parse s), [])

/-! ## Release data model (`src/lib/sources/github/models.rs`) -/

/-- A downloadable artifact within a release (`Asset`): numeric id,
download URL and file name. -/
structure Asset where
  id : Nat
  url : String
  name : String
deriving DecidableEq, Repr

/-- A remote release (`Release`): its assets, tag and prerelease flag. -/
structure Release where
  assets : List Asset
  tag_name : String
  prerelease : Bool
deriving DecidableEq, Repr

/-! ## Spec Resolver ("latest" rule)

Modelled from the spec: the Spec Resolver's implementation is not among the
source files of this repository snapshot (only the release data model is);
spec §4.2 defines the "latest" rule. -/

/-- Error of the resolver. -/
inductive ResolveError where
  | specNotSatisfiable
deriving DecidableEq, Repr

/-- Modelled from the spec: `resolve("latest", releases)` — the Spec
Resolver source is absent from this snapshot. Spec §4.2: select the first
release in source order that is not a prerelease; if every release is a
prerelease, fail with `SpecNotSatisfiable` unless the caller explicitly
opted into prerelease resolution, in which case the first release in source
order is taken. -/
def resolveLatest (allowPrerelease : Bool) (releases : List Release) :
    Except ResolveError Release :=
  if allowPrerelease then
    match releases with
    | [] => .error .specNotSatisfiable
    | r :: _ => .ok r
  else
    match releases.find? (fun r => !r.prerelease) with
    | some r => .ok r
    | none => .error .specNotSatisfiable

/-! ## Trust Store

Modelled from the spec: the Trust Store implementation is not among the
source files of this snapshot (only the CLI's `prompt_for_install_trust`
declaration refers to it); spec §4.4 and the §3 invariants define it. -/

/-- Modelled from the spec: `is_trusted(identifier)` — membership in the
persisted set of trusted identifiers (spec §4.4). -/
def is_trusted (store : List ToolId) (id : ToolId) : Bool :=
  store.contains id

/-- Modelled from the spec: `trust(identifier)` — idempotent insert into
the trust store; trusting an already-trusted identifier is a no-op
(spec §4.4, §3 invariants). -/
def trust (store : List ToolId) (id : ToolId) : List ToolId :=
  if id ∈ store then store else store ++ [id]

/-! ## Installer trust gate

Modelled from the spec: the Installer implementation is not among the
source files of this snapshot; spec §4.4/§4.5 define the gate: `is_trusted`
is queried before installing, and absence of trust yields `Untrusted`
before any download is attempted. -/

/-- One observable step of an install attempt. -/
inductive InstallEvent where
  | trustCheck (id : ToolId)
  | networkFetch (url : String)
  | writeTool (path : String)
deriving DecidableEq, Repr

/-- Modelled from the spec: `install(identifier, release, asset)` up to its
trust gate — the Installer source is absent from this snapshot. Spec §4.4:
the Installer queries `is_trusted` before installing; an untrusted
identifier fails with `Untrusted` before any network call; otherwise the
asset is downloaded (a network fetch of its URL) and written into a path
scoped to (identifier, version). `downloadRes` is the environment's outcome
for the download. -/
def installTool (store : List ToolId) (id : ToolId) (release : Release)
    (asset : Asset) (downloadRes : Except IoError (List Nat)) :
    Except AftmanError InstalledTool × List InstallEvent :=
  if is_trusted store id then
    match downloadRes with
    | .error e => (.error (.networkError e.msg),
        [.trustCheck id, .networkFetch asset.url])
    | .ok _ =>
      let path := id.author ++ "/" ++ id.name ++ "/" ++ release.tag_name
      (.ok { id := id, version := release.tag_name, path := path },
        [.trustCheck id, .networkFetch asset.url, .writeTool path])
  else
    (.error (.untrusted id), [.trustCheck id])

/-! ## Link Manager

Modelled from the spec: `recreate_all_links` is not among the source files
of this snapshot (only its caller `SelfInstallSubcommand::run` is);
spec §4.6 and the §3 invariants define it. -/

/-- Modelled from the spec: `recreate_all_links(tool_index, self)` — the
Link Manager source is absent from this snapshot (its caller in
src/src/cli/self_install.rs is shown). Spec §4.6: for every `InstalledTool`
plus the program's own executable, ensure a stable-named link exists in the
shared launcher directory pointing at the versioned storage path, removing
any prior link of that name first; afterwards the launcher directory holds
exactly those links. Returns the new launcher directory (name → target),
whether the program's own launcher already existed (`had_prior_install`)
and whether any link's target changed (`was_updated`). -/
def recreate_all_links (toolIndex : List (ToolId × InstalledTool))
    (selfName selfPath : String) (disk : List (String × String)) :
    List (String × String) × Bool × Bool :=
  let wanted := (selfName, selfPath) ::
    toolIndex.map (fun e => (e.1.name, e.2.path))
  let had_prior_install := disk.any (fun l => l.1 = selfName)
  let was_updated := wanted.any (fun l =>
    (disk.lookup l.1) ≠ some l.2)
  (wanted, had_prior_install, was_updated)

/-! ## Home loading

Modelled from the spec: `Home::load` is not among the source files of this
snapshot (only its caller `Cli::run` and the generic loaders in
src/lib/util.rs are). Spec §4.7: each state file that does not exist is
auto-healed by writing its default empty serialized form and proceeding
with the default value — the behavior `load_from_file` implements — while a
file that exists but cannot be parsed is a fatal `FileCorrupt` condition,
distinct from the missing-file case, surfaced rather than healed — the
surfacing behavior `load_from_file_fallible` implements for parse
failures. -/

/-- Modelled from the spec: loading one of Home's state files
(spec §4.7) — `Home::load` is absent from this snapshot. A missing file
(read error of kind `NotFound`) is healed: the default value's serialized
form is written and the default value is returned; any other read error
propagates; a present file that fails to parse is a fatal
`AftmanError.fileCorrupt` for that path. Returns the result together with
the trace of writes attempted. -/
def loadStateFile {T : Type} (readRes : Except IoError (List Nat))
    (writeRes : Except IoError Unit) (dfault : T)
    (parse : List Nat → Option T) (ser : T → List Nat) (path : String) :
    Except AftmanError T × List FsOp :=
  match readRes with
  | .error e =>
    if e.kind = .notFound then
      match writeRes with
      | .error e2 => (.error (.io e2), [.write path (ser dfault)])
      | .ok _ => (.ok dfault, [.write path (ser dfault)])
    else (.error (.io e), [])
  | .ok s =>
    match parse s with
    | some t => (.ok t, [])
    | none => (.error (.fileCorrupt path), [])

/-! ## Concrete fixtures used by witness and counterexample theorems -/

/-- The empty Home: no trusted identifiers, no installed tools. -/
def homeEmpty : Home := ⟨[], []⟩

/-- An I/O error of kind `other` ("disk full"). -/
def ioDiskFull : IoError := ⟨.other, "disk full"⟩

/-- An I/O error of kind `NotFound`. -/
def ioMissing : IoError := ⟨.notFound, "No such file or directory"⟩

/-- An I/O error of kind `PermissionDenied`. -/
def ioPermDenied : IoError := ⟨.permissionDenied, "permission denied"⟩

/-- A behavior whose load succeeds, whose command succeeds without mutating
Home, and whose save fails with a disk-full error. -/
def bSaveFail : CliBehavior :=
  ⟨.ok homeEmpty, fun h => (.ok (), h), fun _ => .error (.io ioDiskFull)⟩

/-- A behavior whose load fails with a corrupt trust-store file. -/
def bLoadFail : CliBehavior :=
  ⟨.error (.fileCorrupt "trust.txt"), fun h => (.ok (), h), fun _ => .ok ()⟩

/-- The stable release of the spec §8 scenario: tag "v2.0.0", not a
prerelease. -/
def rel200 : Release := ⟨[], "v2.0.0", false⟩

/-- The prerelease of the spec §8 scenario: tag "v2.1.0-beta". -/
def rel210beta : Release := ⟨[], "v2.1.0-beta", true⟩

/-- A concrete tool identifier. -/
def idW : ToolId := ⟨"rojo-rbx", "rojo"⟩

/-- A concrete release asset. -/
def assetW : Asset := ⟨1, "https://example.com/rojo.zip", "rojo-linux-x86_64.zip"⟩

/-- A concrete release carrying `assetW`. -/
def relW : Release := ⟨[assetW], "v7.4.0", false⟩

/-- A toy state-file parser: only the contents `[48]` parse (to `0`). -/
def parseNatFile : List Nat → Option Nat :=
  fun s => if s = [48] then some 0 else none

/-- The toy serializer matching `parseNatFile`. -/
def serNatFile : Nat → List Nat := fun _ => [48]

/-- When does a release list place `r` as its first non-prerelease entry:
some prefix of all-prerelease entries precedes it and its own flag is
false. -/
def isFirstStable (releases : List Release) (r : Release) : Prop :=
  ∃ pre suf, releases = pre ++ r :: suf ∧ r.prerelease = false ∧
    ∀ x ∈ pre, x.prerelease = true

/-! ## Theorems -/

/-- C1: in every invocation whose Home load succeeds, `Cli::run` runs the
command and then attempts the save regardless of the command's outcome; the
exit status follows the command's result (0 on success, 1 on error) unless
the save itself fails, in which case the save failure takes precedence and
the exit status is 1 even for a successful command. -/
theorem cli_run_save_always_and_exit_precedence (b : CliBehavior) (home : Home)
    (h : b.loadResult = .ok home) :
    (Cli.run b).2 = [CliEvent.loadAttempt, CliEvent.commandRun, CliEvent.saveAttempt] ∧
    (∀ e, b.save (b.command home).2 = .error e →
      (Cli.run b).1 = .error (.saveFailed e) ∧ exitCode (Cli.run b).1 = 1) ∧
    (b.save (b.command home).2 = .ok () →
      ((b.command home).1 = .ok () →
        (Cli.run b).1 = .ok () ∧ exitCode (Cli.run b).1 = 0) ∧
      (∀ e, (b.command home).1 = .error e →
        (Cli.run b).1 = .error (.commandFailed e) ∧ exitCode (Cli.run b).1 = 1)) := by
  simp only [Cli.run, h]
  rcases hs : b.save (b.command home).2 with e | ⟨⟩
  · refine ⟨rfl, ?_, ?_⟩
    · intro e2 he2
      cases he2
      exact ⟨rfl, rfl⟩
    · intro hok
      cases hok
  · rcases hc : (b.command home).1 with e | ⟨⟩
    · refine ⟨rfl, ?_, ?_⟩
      · intro e2 he2
        cases he2
      · intro _
        refine ⟨?_, ?_⟩
        · intro hok
          cases hok
        · intro e2 he2
          cases he2
          exact ⟨rfl, rfl⟩
    · refine ⟨rfl, ?_, ?_⟩
      · intro e2 he2
        cases he2
      · intro _
        refine ⟨fun _ => ⟨rfl, rfl⟩, ?_⟩
        intro e2 he2
        cases he2

/-- C1 witness: on the concrete behavior whose command succeeds but whose
save fails with a disk-full error, the three phases all run and the result
is the save failure, giving exit status 1. -/
theorem cli_run_save_always_and_exit_precedence_witness :
    (Cli.run bSaveFail).2 =
      [CliEvent.loadAttempt, CliEvent.commandRun, CliEvent.saveAttempt] ∧
    (Cli.run bSaveFail).1 = .error (.saveFailed (.io ioDiskFull)) ∧
    exitCode (Cli.run bSaveFail).1 = 1 := by
  have h := cli_run_save_always_and_exit_precedence bSaveFail homeEmpty rfl
  exact ⟨h.1, (h.2.1 (.io ioDiskFull) rfl).1, (h.2.1 (.io ioDiskFull) rfl).2⟩

/-- C10: in every invocation whose Home load fails, `Cli::run` returns the
load error immediately: the command is never run and no save is ever
attempted. -/
theorem cli_run_load_failure_skips_command_and_save (b : CliBehavior)
    (e : AftmanError) (h : b.loadResult = .error e) :
    Cli.run b = (.error (.loadFailed e), [CliEvent.loadAttempt]) ∧
    CliEvent.commandRun ∉ (Cli.run b).2 ∧
    CliEvent.saveAttempt ∉ (Cli.run b).2 := by
  simp [Cli.run, h]

/-- C10 witness: on the concrete behavior whose load fails with a corrupt
trust-store file, the run stops at the load phase. -/
theorem cli_run_load_failure_skips_command_and_save_witness :
    Cli.run bLoadFail =
      (.error (.loadFailed (.fileCorrupt "trust.txt")), [CliEvent.loadAttempt]) ∧
    CliEvent.commandRun ∉ (Cli.run bLoadFail).2 ∧
    CliEvent.saveAttempt ∉ (Cli.run bLoadFail).2 :=
  cli_run_load_failure_skips_command_and_save bLoadFail (.fileCorrupt "trust.txt") rfl

/-- C2 counterexample: `write_executable_file` writes the contents with a
single `write` directly at the final path — its trace holds no rename — so
interrupting that write after one byte (starting from a file system with no
prior file) leaves the one-byte truncation observable at the final path,
which is neither the prior state (no file), nor no file, nor the complete
contents. -/
theorem write_executable_file_truncation_observable :
    (write_executable_file (.ok ()) (.ok ()) "tool-exe" [7, 8]).2 =
      [FsOp.write "tool-exe" [7, 8], FsOp.setPermissions "tool-exe" 493] ∧
    (FsOp.write "tool-exe" [7, 8]).isRename = false ∧
    (FsOp.setPermissions "tool-exe" 493).isRename = false ∧
    obsState emptyFs
      [FsOp.write "tool-exe" [7, 8], FsOp.setPermissions "tool-exe" 493]
      0 1 "tool-exe" = some [7] ∧
    emptyFs "tool-exe" = none ∧
    some [7] ≠ (none : Option (List Nat)) ∧
    ([7] : List Nat) ≠ [7, 8] := by
  refine ⟨rfl, rfl, rfl, rfl, rfl, by simp, by simp⟩

/-- C2 amended: `write_executable_file` writes the contents directly at the
given final path — its first attempted operation is always the full `write`
at that path and no operation in its trace is a rename — so no
write-to-temporary-then-rename discipline is used, and (per the
counterexample) an interrupted write can leave a partially-written file
observable at the final path. -/
theorem write_executable_file_writes_directly
    (writeRes permRes : Except IoError Unit) (path : String)
    (contents : List Nat) :
    (write_executable_file writeRes permRes path contents).2.head? =
      some (FsOp.write path contents) ∧
    ((write_executable_file writeRes permRes path contents).2.all
      (fun op => !op.isRename)) = true := by
  rcases writeRes with e | ⟨⟩ <;> rcases permRes with e2 | ⟨⟩ <;>
    simp [write_executable_file, FsOp.isRename]

/-- C6 counterexample: a removal failure of kind `PermissionDenied` — not a
"not found" failure — does not abort the link's recreation:
`write_executable_link` still proceeds to create the symlink and returns
success, because the source discards the removal result entirely with
`.ok()`. -/
theorem write_executable_link_swallows_remove_failure :
    write_executable_link (.error ioPermDenied) (.ok ()) (.ok ())
      .linux "bin/rojo" "store/rojo" =
      (.ok, [FsOp.removeFile "bin/rojo",
             FsOp.symlink "store/rojo" "bin/rojo"]) ∧
    ioPermDenied.kind ≠ IoErrorKind.notFound ∧
    (LinkOutcome.ok ≠ LinkOutcome.error (.io ioPermDenied)) := by
  refine ⟨rfl, by simp [ioPermDenied], by simp⟩

/-- C6 amended: when a link of the target name already exists it is removed
before the new link is created — the removal is always the first attempted
operation, preceding the symlink — but every removal failure, "not found"
or otherwise, is ignored: the outcome and trace of `write_executable_link`
do not depend on the removal result on either unix platform family. -/
theorem write_executable_link_remove_first_result_ignored
    (r1 r2 symRes permRes : Except IoError Unit) (link target : String) :
    (write_executable_link r1 symRes permRes .linux link target =
      write_executable_link r2 symRes permRes .linux link target) ∧
    (write_executable_link r1 symRes permRes .macos link target =
      write_executable_link r2 symRes permRes .macos link target) ∧
    (write_executable_link r1 symRes permRes .linux link target).2.head? =
      some (FsOp.removeFile link) ∧
    (write_executable_link r1 symRes permRes .macos link target).2.head? =
      some (FsOp.removeFile link) := by
  rcases symRes with e | ⟨⟩ <;> rcases permRes with e2 | ⟨⟩ <;>
    simp [write_executable_link]

/-- C8: on a successful link creation, the link object itself is marked
executable (mode 0o755 set on the link path) on macOS and on macOS only:
the linux trace ends at the symlink with no permission operation at all,
and the non-unix stub panics before attempting anything. -/
theorem write_executable_link_macos_only_marks_link
    (removeRes permRes : Except IoError Unit) (link target : String) :
    (write_executable_link removeRes (.ok ()) (.ok ()) .macos link target).2 =
      [FsOp.removeFile link, FsOp.symlink target link,
       FsOp.setPermissions link 493] ∧
    (write_executable_link removeRes (.ok ()) permRes .linux link target).2 =
      [FsOp.removeFile link, FsOp.symlink target link] ∧
    (write_executable_link removeRes (.ok ()) permRes .windows link target).2 =
      [] := by
  refine ⟨rfl, ?_, rfl⟩
  rcases permRes with e | ⟨⟩ <;> simp [write_executable_link]

/-- A successful `find?` for a non-prerelease entry finds the first release
in source order whose prerelease flag is false. -/
theorem find?_stable_isFirstStable (releases : List Release) (r : Release)
    (h : releases.find? (fun x => !x.prerelease) = some r) :
    isFirstStable releases r := by
  rw [List.find?_eq_some] at h
  obtain ⟨hp, pre, suf, heq, hpre⟩ := h
  refine ⟨pre, suf, heq, by simpa using hp, ?_⟩
  intro x hx
  have hx2 := hpre x hx
  simpa using hx2

/-- C3: on every non-empty release list, resolving "latest" without the
prerelease opt-in returns exactly the first release in source order whose
prerelease flag is false; when a non-prerelease release exists the result
is never a prerelease; and when every release is a prerelease, resolution
fails with `SpecNotSatisfiable` unless the caller opted into prerelease
resolution, in which case it succeeds. -/
theorem resolveLatest_latest_rule (releases : List Release)
    (hne : releases ≠ []) :
    (∀ r, resolveLatest false releases = .ok r → isFirstStable releases r) ∧
    ((∃ r ∈ releases, r.prerelease = false) →
      ∃ r, resolveLatest false releases = .ok r ∧ r.prerelease = false) ∧
    ((∀ r ∈ releases, r.prerelease = true) →
      resolveLatest false releases = .error .specNotSatisfiable ∧
      ∃ r, resolveLatest true releases = .ok r) := by
  refine ⟨?_, ?_, ?_⟩
  · intro r hr
    simp only [resolveLatest, Bool.false_eq_true, if_false] at hr
    rcases hf : releases.find? (fun x => !x.prerelease) with _ | r2
    · simp only [hf] at hr
      cases hr
    · simp only [hf] at hr
      cases hr
      exact find?_stable_isFirstStable _ _ hf
  · rintro ⟨r, hrmem, hrstable⟩
    rcases hf : releases.find? (fun x => !x.prerelease) with _ | r2
    · rw [List.find?_eq_none] at hf
      exact absurd (by simp [hrstable]) (hf r hrmem)
    · refine ⟨r2, ?_, ?_⟩
      · simp [resolveLatest, hf]
      · have := List.find?_some hf
        simpa using this
  · intro hall
    have hf : releases.find? (fun x => !x.prerelease) = none := by
      rw [List.find?_eq_none]
      intro x hx
      simp [hall x hx]
    refine ⟨by simp [resolveLatest, hf], ?_⟩
    rcases releases with _ | ⟨a, as⟩
    · exact absurd rfl hne
    · exact ⟨a, by simp [resolveLatest]⟩

/-- C3 witness: the spec §8 scenario — releases `[v2.0.0 stable,
v2.1.0-beta prerelease]` — resolves "latest" to `v2.0.0`, the first
non-prerelease release. -/
theorem resolveLatest_latest_rule_witness :
    resolveLatest false [rel200, rel210beta] = .ok rel200 ∧
    isFirstStable [rel200, rel210beta] rel200 ∧
    rel200.prerelease = false := by
  have h := resolveLatest_latest_rule [rel200, rel210beta] (by simp)
  exact ⟨rfl, h.1 rel200 rfl, rfl⟩

/-- C4: for every identifier not in the trust store, an install attempt
fails with `Untrusted` at the trust check: its trace is exactly the trust
check, contains no network fetch of any URL, and no `InstalledTool` is ever
produced. -/
theorem install_untrusted_gate (store : List ToolId) (id : ToolId)
    (release : Release) (asset : Asset)
    (downloadRes : Except IoError (List Nat))
    (h : is_trusted store id = false) :
    (installTool store id release asset downloadRes).1 =
      .error (.untrusted id) ∧
    (installTool store id release asset downloadRes).2 =
      [InstallEvent.trustCheck id] ∧
    (∀ url, InstallEvent.networkFetch url ∉
      (installTool store id release asset downloadRes).2) ∧
    (∀ t, (installTool store id release asset downloadRes).1 ≠ .ok t) := by
  simp [installTool, h]

/-- C4 witness: with an empty trust store, installing the concrete tool
`rojo-rbx/rojo` fails with `Untrusted` and its asset URL is never
fetched. -/
theorem install_untrusted_gate_witness :
    (installTool [] idW relW assetW (.ok [1])).1 = .error (.untrusted idW) ∧
    (installTool [] idW relW assetW (.ok [1])).2 =
      [InstallEvent.trustCheck idW] ∧
    InstallEvent.networkFetch assetW.url ∉
      (installTool [] idW relW assetW (.ok [1])).2 := by
  have h := install_untrusted_gate [] idW relW assetW (.ok [1]) rfl
  exact ⟨h.1, h.2.1, h.2.2.1 assetW.url⟩

/-- C5: after `recreate_all_links`, a name carries a launcher link exactly
when it is the program's own launcher name or the name of some tool in the
tool index — no stale links, no missing links. -/
theorem recreate_all_links_exact_names
    (toolIndex : List (ToolId × InstalledTool)) (selfName selfPath : String)
    (disk : List (String × String)) (n : String) :
    (∃ t, (n, t) ∈ (recreate_all_links toolIndex selfName selfPath disk).1) ↔
      (n = selfName ∨ ∃ e ∈ toolIndex, e.1.name = n) := by
  simp only [recreate_all_links, List.mem_cons, List.mem_map, Prod.mk.injEq]
  constructor
  · rintro ⟨t, ⟨hn, _⟩ | ⟨e, he, hn, _⟩⟩
    · exact Or.inl hn
    · exact Or.inr ⟨e, he, hn⟩
  · rintro (rfl | ⟨e, he, hn⟩)
    · exact ⟨selfPath, Or.inl ⟨rfl, rfl⟩⟩
    · exact ⟨e.2.path, Or.inr ⟨e, he, hn, rfl⟩⟩

/-- C7: loading a Home state file heals a missing file — when the read
fails with kind `NotFound` and the healing write succeeds, the default
value's serialized form is written and the default value is returned —
while a present file that fails to parse is surfaced as the distinct fatal
`FileCorrupt` error with nothing written, and a present file that parses is
returned as parsed. -/
theorem loadStateFile_heals_missing_surfaces_corrupt {T : Type}
    (writeRes : Except IoError Unit) (dfault : T)
    (parse : List Nat → Option T) (ser : T → List Nat) (path : String)
    (e : IoError) (s : List Nat) :
    (e.kind = .notFound → writeRes = .ok () →
      loadStateFile (.error e) writeRes dfault parse ser path =
        (.ok dfault, [FsOp.write path (ser dfault)])) ∧
    (parse s = none →
      loadStateFile (.ok s) writeRes dfault parse ser path =
        (.error (.fileCorrupt path), [])) ∧
    (∀ t, parse s = some t →
      loadStateFile (.ok s) writeRes dfault parse ser path = (.ok t, [])) ∧
    AftmanError.fileCorrupt path ≠ AftmanError.fileNotFound path := by
  refine ⟨?_, ?_, ?_, by simp⟩
  · intro hk hw
    subst hw
    simp [loadStateFile, hk]
  · intro hp
    simp [loadStateFile, hp]
  · intro t hp
    simp [loadStateFile, hp]

/-- C7 witness: with the toy state-file format, a missing file loads as the
default `0` after writing the default serialized form `[48]`, while a
present file with unparsable contents `[99]` fails with `FileCorrupt`. -/
theorem loadStateFile_heals_missing_surfaces_corrupt_witness :
    loadStateFile (.error ioMissing) (.ok ()) 0 parseNatFile serNatFile
      "trust.txt" = (.ok 0, [FsOp.write "trust.txt" [48]]) ∧
    loadStateFile (.ok [99]) (.ok ()) 0 parseNatFile serNatFile
      "trust.txt" = (.error (.fileCorrupt "trust.txt"), []) := by
  have h := loadStateFile_heals_missing_surfaces_corrupt (.ok ()) 0
    parseNatFile serNatFile "trust.txt" ioMissing [99]
  exact ⟨h.1 rfl rfl, h.2.1 (by simp [parseNatFile])⟩

/-- The trusted identifier is always a member of the store `trust`
returns. -/
theorem mem_trust_self (store : List ToolId) (id : ToolId) :
    id ∈ trust store id := by
  by_cases h : id ∈ store <;> simp [trust, h]

/-- Trusting an identifier already in the store leaves it unchanged. -/
theorem trust_of_mem (store : List ToolId) (id : ToolId) (h : id ∈ store) :
    trust store id = store := by
  simp [trust, h]

/-- C9: `trust` is idempotent — trusting the same identifier twice yields
the same store as trusting it once, trusting an already-trusted identifier
is a no-op, and on a duplicate-free store the trusted identifier ends up
with exactly one entry. -/
theorem trust_idempotent (store : List ToolId) (id : ToolId) :
    trust (trust store id) id = trust store id ∧
    (id ∈ store → trust store id = store) ∧
    (store.count id ≤ 1 → (trust store id).count id = 1) := by
  refine ⟨trust_of_mem _ _ (mem_trust_self store id), trust_of_mem store id, ?_⟩
  intro hc
  by_cases h : id ∈ store
  · rw [trust_of_mem store id h]
    have h1 : 1 ≤ store.count id := List.one_le_count_iff.mpr h
    omega
  · have h0 : store.count id = 0 := List.count_eq_zero.mpr h
    simp [trust, h, List.count_append, h0]

/-- C9 witness: trusting the concrete identifier `rojo-rbx/rojo` twice from
the empty store gives the same store as trusting once, holding exactly one
entry for it. -/
theorem trust_idempotent_witness :
    trust (trust [] idW) idW = trust [] idW ∧
    (trust [] idW).count idW = 1 := by
  have h := trust_idempotent [] idW
  exact ⟨h.1, h.2.2 (by simp)⟩

end Aftman
